import Mathlib

/-!
Shallow embedding of the user controller of the devwars-api repository
(`src/app/controllers/user/User.controller.ts`): username lookup, paged
listing, partial user update, and the transactional user-removal cascade.

Handlers are embedded as pure functions over explicit database state;
fallible handlers return an `Except ApiError` response paired with the
resulting state. Collaborators that live outside the provided sources
(the `UserRole` enum values, the repository query helpers, the password
hash, and the transaction combinator of the ORM) are modelled from the
specification and marked as such in their doc comments.
-/

namespace DevWars

/-- Error object thrown by handlers (`app/utils/apiError`): an HTTP status
code and a message, serialized as the JSON error body. -/
structure ApiError where
  code : Nat
  error : String
  deriving Repr, DecidableEq

/-- Lodash `_.clamp(n, lower, upper)`: clamps a number within the inclusive
lower and upper bounds. -/
def lodashClamp (n lower upper : Int) : Int :=
  max lower (min n upper)

/-- The pagination link pair of the paged endpoints. Each link is represented
by the offset encoded in its `after=` query parameter; `none` stands for the
JSON `null` link. -/
structure PaginationLinks where
  before : Option Nat
  after : Option Nat
  deriving Repr, DecidableEq

/-- The link computation duplicated verbatim by the `all` and
`getUsersLeaderboards` handlers (User.controller.ts lines 186-192 and
405-411): `first` and `after` are the parsed query parameters and
`resultLen` is the length of the returned result page. The `before` offset
is `clamp(after - first, 0, after)`; `after` becomes null on an empty page
and `before` becomes null at offset zero. -/
def buildPaginationLinks (first after resultLen : Nat) : PaginationLinks :=
  let beforeOffset : Int := lodashClamp ((after : Int) - (first : Int)) 0 (after : Int)
  let links : PaginationLinks :=
    { before := some beforeOffset.toNat, after := some (after + first) }
  let links := if resultLen = 0 then { links with after := none } else links
  if after = 0 then { links with before := none } else links

/-- Pagination links produced by the `all` handler (User.controller.ts
lines 184-193). -/
def allPagination (first after resultLen : Nat) : PaginationLinks :=
  buildPaginationLinks first after resultLen

/-- Pagination links produced by the `getUsersLeaderboards` handler
(User.controller.ts lines 403-411). -/
def getUsersLeaderboardsPagination (first after resultLen : Nat) : PaginationLinks :=
  buildPaginationLinks first after resultLen

theorem buildPaginationLinks_before (first after resultLen : Nat) :
    ((buildPaginationLinks first after resultLen).before = none ↔ after = 0) ∧
    (after ≠ 0 → (buildPaginationLinks first after resultLen).before =
      some (max ((after : Int) - (first : Int)) 0).toNat) := by
  unfold buildPaginationLinks lodashClamp
  by_cases h : after = 0
  · subst h
    constructor
    · split <;> simp
    · intro hc; exact absurd rfl hc
  · have hmax : max 0 (min ((after : Int) - (first : Int)) (after : Int)) =
        max ((after : Int) - (first : Int)) 0 := by
      rcases le_total ((after : Int) - (first : Int)) (after : Int) with hle | hle
      · rw [min_eq_left hle, max_comm]
      · rw [min_eq_right hle]
        have h1 : (0 : Int) ≤ (after : Int) := Int.ofNat_nonneg after
        have h2 : (after : Int) ≤ (after : Int) - (first : Int) := hle
        rw [max_eq_right h1, max_eq_left (le_trans h1 h2)]
        have h3 : (first : Int) ≤ 0 := by linarith
        have h4 : (0 : Int) ≤ (first : Int) := Int.ofNat_nonneg first
        have h5 : (first : Int) = 0 := le_antisymm h3 h4
        rw [h5]; ring
    constructor
    · split <;> simp [h]
    · intro _
      split <;> simp [h, hmax, sup_comm]

/-- C5: for every paged listing request (`all` and `getUsersLeaderboards`)
with parsed parameters `first` and `after`, the `before` link's encoded
offset equals `max (after - first) 0`, and the `before` link is null exactly
when `after = 0`. -/
theorem before_link_clamped_offset (first after resultLen : Nat) :
    ((allPagination first after resultLen).before = none ↔ after = 0) ∧
    (after ≠ 0 → (allPagination first after resultLen).before =
      some (max ((after : Int) - (first : Int)) 0).toNat) ∧
    ((getUsersLeaderboardsPagination first after resultLen).before = none ↔ after = 0) ∧
    (after ≠ 0 → (getUsersLeaderboardsPagination first after resultLen).before =
      some (max ((after : Int) - (first : Int)) 0).toNat) := by
  have h := buildPaginationLinks_before first after resultLen
  exact ⟨h.1, h.2, h.1, h.2⟩

/-- Concrete instantiation of `before_link_clamped_offset`: with
`first = 5`, `after = 40` the `before` link encodes offset `35`, and with
`after = 0` the `before` link is null. -/
theorem before_link_clamped_offset_witness :
    (allPagination 5 40 3).before = some 35 ∧ (allPagination 5 0 3).before = none := by
  constructor
  · have h := (before_link_clamped_offset 5 40 3).2.1 (by decide)
    rw [h]; rfl
  · exact (before_link_clamped_offset 5 0 3).1.mpr rfl

theorem buildPaginationLinks_after (first after resultLen : Nat) :
    ((buildPaginationLinks first after resultLen).after = none ↔ resultLen = 0) ∧
    (resultLen ≠ 0 → (buildPaginationLinks first after resultLen).after =
      some (after + first)) := by
  unfold buildPaginationLinks lodashClamp
  constructor
  · split <;> split <;> simp_all
  · intro h
    split <;> split <;> simp_all

/-- C6: for every paged listing request (`all` and `getUsersLeaderboards`),
the `after` link is null exactly when the returned result page is empty;
otherwise its encoded offset equals `after + first`. -/
theorem after_link_offset (first after resultLen : Nat) :
    ((allPagination first after resultLen).after = none ↔ resultLen = 0) ∧
    (resultLen ≠ 0 → (allPagination first after resultLen).after =
      some (after + first)) ∧
    ((getUsersLeaderboardsPagination first after resultLen).after = none ↔ resultLen = 0) ∧
    (resultLen ≠ 0 → (getUsersLeaderboardsPagination first after resultLen).after =
      some (after + first)) := by
  have h := buildPaginationLinks_after first after resultLen
  exact ⟨h.1, h.2, h.1, h.2⟩

/-- Concrete instantiation of `after_link_offset`: with `first = 5`,
`after = 40` and a page of 3 results the `after` link encodes offset `45`,
and with an empty page it is null. -/
theorem after_link_offset_witness :
    (getUsersLeaderboardsPagination 5 40 3).after = some 45 ∧
    (getUsersLeaderboardsPagination 5 40 0).after = none := by
  constructor
  · exact (after_link_offset 5 40 3).2.2.2 (by decide)
  · exact (after_link_offset 5 40 0).2.2.1.mpr rfl

/-! ### Username lookup (`lookupUser`, User.controller.ts lines 62-97) -/

/-- Whitespace characters matched by the JavaScript regex `\s` used in
`username.replace(/\s/g, '')`, restricted to the ASCII range (the unicode
space characters play no role here). -/
def isJsWhitespace (c : Char) : Bool :=
  c = ' ' || c = '\t' || c = '\n' || c = '\r' || c = '\x0b' || c = '\x0c'

/-- JavaScript `String.prototype.replace(/\s/g, '')`: removes every
whitespace character of the string. -/
def removeAllWhitespace (s : String) : String :=
  String.mk (s.data.filter (fun c => !isJsWhitespace c))

/-- JavaScript `String.prototype.trim()`: drops leading and trailing
whitespace. -/
def jsTrim (s : String) : String :=
  String.mk (((s.data.dropWhile isJsWhitespace).reverse.dropWhile isJsWhitespace).reverse)

/-- JavaScript `String.prototype.toLowerCase()` as applied to the provider
names (ASCII): lowercases every character. -/
def jsToLowerCase (s : String) : String :=
  String.mk (s.data.map Char.toLower)

/-- A `LinkedAccount` connection row as it appears inside a looked-up user's
`connections` relation: a provider username and a provider name. -/
structure ConnectionRec where
  username : String
  provider : String
  deriving Repr, DecidableEq

/-- A user record as returned by the repository for the lookup handler, with
the `connections` relation joined. The `email` field stands for the
additional columns a full record carries beyond username and id. -/
structure FullUser where
  id : Nat
  username : String
  email : String
  connections : List ConnectionRec
  deriving Repr, DecidableEq

/-- The projected pair returned per user when `full` is false. -/
structure BriefUser where
  username : String
  id : Nat
  deriving Repr, DecidableEq

/-- The in-place connections transform of `lookupUser` (lines 81-85): every
`connections` entry is reduced to its username and its lowercased
provider. -/
def transformConnections (u : FullUser) : FullUser :=
  { u with connections :=
      u.connections.map (fun a => { username := a.username, provider := jsToLowerCase a.provider }) }

/-- The response body of `lookupUser`: either the fuller records (when
`full` is true) or the username/id pairs. -/
inductive LookupResponse
  | fullUsers (users : List FullUser)
  | briefUsers (users : List BriefUser)
  deriving Repr, DecidableEq

/-- The `lookupUser` handler (lines 62-97). `username` is the raw query
parameter (`none` when absent, defaulted to the empty string); `limit` and
`full` are the already-parsed query parameters (their parsers never fail,
substituting defaults). `getUsersLikeUsername` stands for the repository
query; the second component of the result counts how many repository
queries were performed. -/
def lookupUser (username : Option String) (limit : Nat) (full : Bool)
    (getUsersLikeUsername : String → Nat → List FullUser) :
    Except ApiError LookupResponse × Nat :=
  let uname := jsTrim (removeAllWhitespace (username.getD ""))
  if uname = "" then
    (Except.error
      { code := 400, error := "The specified username within the query must not be empty." }, 0)
  else
    let users := (getUsersLikeUsername uname limit).map transformConnections
    if full then
      (Except.ok (LookupResponse.fullUsers users), 1)
    else
      (Except.ok (LookupResponse.briefUsers
        (users.map (fun e => { username := e.username, id := e.id }))), 1)

/-- C9: whenever the `username` query parameter is missing or becomes empty
after removing all whitespace, `lookupUser` fails with a 400 validation
error regardless of `limit` and `full`, and performs no repository query. -/
theorem lookupUser_empty_username_rejected (username : Option String) (limit : Nat)
    (full : Bool) (getUsersLikeUsername : String → Nat → List FullUser)
    (h : jsTrim (removeAllWhitespace (username.getD "")) = "") :
    lookupUser username limit full getUsersLikeUsername =
      (Except.error
        { code := 400, error := "The specified username within the query must not be empty." },
       0) := by
  unfold lookupUser
  simp [h]

/-- Concrete instantiation of `lookupUser_empty_username_rejected` at the
whitespace-only username `" \t "`. -/
theorem lookupUser_empty_username_rejected_witness :
    jsTrim (removeAllWhitespace ((some " \t ").getD "")) = "" ∧
    lookupUser (some " \t ") 7 true (fun _ _ => []) =
      (Except.error
        { code := 400, error := "The specified username within the query must not be empty." },
       0) :=
  ⟨by decide, lookupUser_empty_username_rejected (some " \t ") 7 true (fun _ _ => []) (by decide)⟩

/-- C8: on every successful `lookupUser` call, the `full = false` response
is exactly the username/id pair per matched user; the `full = true` response
is the fuller records with each `connections` entry reduced to its username
and lowercased provider; and the `full = false` projection is computed from
the transformed records (though projecting after the transform coincides
with projecting the raw records, as the transform touches only
`connections`). -/
theorem lookupUser_projection (username : Option String) (limit : Nat)
    (getUsersLikeUsername : String → Nat → List FullUser)
    (h : jsTrim (removeAllWhitespace (username.getD "")) ≠ "") :
    lookupUser username limit true getUsersLikeUsername =
      (Except.ok (LookupResponse.fullUsers
        ((getUsersLikeUsername (jsTrim (removeAllWhitespace (username.getD ""))) limit).map
          transformConnections)), 1) ∧
    lookupUser username limit false getUsersLikeUsername =
      (Except.ok (LookupResponse.briefUsers
        (((getUsersLikeUsername (jsTrim (removeAllWhitespace (username.getD ""))) limit).map
            transformConnections).map
          (fun e => { username := e.username, id := e.id }))), 1) ∧
    (∀ u : FullUser, (transformConnections u).connections =
      u.connections.map (fun a => { username := a.username, provider := jsToLowerCase a.provider })) ∧
    (∀ u : FullUser,
      ({ username := (transformConnections u).username, id := (transformConnections u).id }
        : BriefUser) = { username := u.username, id := u.id }) := by
  refine ⟨?_, ?_, fun u => rfl, fun u => rfl⟩ <;>
    · unfold lookupUser
      simp [h]

/-- Concrete instantiation of `lookupUser_projection`: looking up `"ali"`
against a one-user repository returns the transformed full record when
`full` is true and just the username/id pair when `full` is false. -/
theorem lookupUser_projection_witness :
    jsTrim (removeAllWhitespace ((some "ali").getD "")) ≠ "" ∧
    lookupUser (some "ali") 50 true
        (fun _ _ => [{ id := 27, username := "alice", email := "a@b.c",
                       connections := [{ username := "aliTV", provider := "TWITCH" }] }]) =
      (Except.ok (LookupResponse.fullUsers
        [{ id := 27, username := "alice", email := "a@b.c",
           connections := [{ username := "aliTV", provider := "twitch" }] }]), 1) ∧
    lookupUser (some "ali") 50 false
        (fun _ _ => [{ id := 27, username := "alice", email := "a@b.c",
                       connections := [{ username := "aliTV", provider := "TWITCH" }] }]) =
      (Except.ok (LookupResponse.briefUsers [{ username := "alice", id := 27 }]), 1) := by
  have h : jsTrim (removeAllWhitespace ((some "ali").getD "")) ≠ "" := by decide
  have hp := lookupUser_projection (some "ali") 50
    (fun _ _ => [{ id := 27, username := "alice", email := "a@b.c",
                   connections := [{ username := "aliTV", provider := "TWITCH" }] }]) h
  refine ⟨h, ?_, ?_⟩
  · rw [hp.1]; rfl
  · rw [hp.2.1]; rfl

/-! ### Partial update (`update`, User.controller.ts lines 245-265) -/

/-- A JSON value of the update request body; `other` stands for values of
kinds the handler never inspects (dates, booleans, nested objects and the
like). -/
inductive JsVal
  | null
  | str (s : String)
  | num (n : Int)
  | other (tag : Nat)
  deriving Repr, DecidableEq

/-- A JavaScript object (a user entity or the parsed request body) seen as a
map from property names to values; `none` is an absent property. -/
def JsObject : Type := String → Option JsVal

/-- Property read on the parsed request body (`params.username`,
`params.password`): the body is carried as the list of its enumerable
properties in order, with unique keys as in any JS object. -/
def bodyGet (body : List (String × JsVal)) (k : String) : Option JsVal :=
  (body.find? (fun kv => kv.1 = k)).map Prod.snd

/-- JavaScript `Object.assign(target, source)`: copies every enumerable
property of the source onto the target, in property order. -/
def objectAssign (target : JsObject) (source : List (String × JsVal)) : JsObject :=
  source.foldl (fun acc kv => fun k => if k = kv.1 then some kv.2 else acc k) target

/-- The password pre-hashing step of `update` (line 259): a non-nil
`password` property of the body is replaced by its hash before the merge.
`hashFn` stands for `utils/hash.hash`, kept abstract. -/
def hashPasswordEntry (hashFn : JsVal → JsVal) (body : List (String × JsVal)) :
    List (String × JsVal) :=
  body.map (fun kv =>
    if kv.1 = "password" ∧ kv.2 ≠ JsVal.null then (kv.1, hashFn kv.2) else kv)

/-- The merge performed by `update` (lines 259-261): hash the supplied
password, then `Object.assign` the whole body onto the bound user. -/
def updateMergedUser (hashFn : JsVal → JsVal) (boundUser : JsObject)
    (body : List (String × JsVal)) : JsObject :=
  objectAssign boundUser (hashPasswordEntry hashFn body)

/-- Modelled from the spec: `UserRepository.findByUsername` (its source is
not under `src/`) returns the registered user whose unique username equals
the given value, and no user when the value is missing or not a string. -/
def findByUsername (db : List JsObject) (username : Option JsVal) : Option JsObject :=
  match username with
  | some (JsVal.str s) => db.find? (fun u => decide (u "username" = some (JsVal.str s)))
  | _ => none

/-- The `update` handler (lines 245-265): rejects a username that already
belongs to a different registered user with a 409 conflict before any write;
otherwise hashes the supplied password, merges the body onto the bound user
and saves it. The result pairs the JSON response with the resulting user
table (`save` persists the merged entity at the bound user's row). -/
def update (hashFn : JsVal → JsVal) (db : List JsObject) (boundUser : JsObject)
    (body : List (String × JsVal)) : Except ApiError JsObject × List JsObject :=
  let existingUsername := findByUsername db (bodyGet body "username")
  let conflict := match existingUsername with
    | some existing => decide (existing "id" ≠ boundUser "id")
    | none => false
  if conflict then
    (Except.error
      { code := 409,
        error := "The provided username already exists for a registered user." }, db)
  else
    let merged := updateMergedUser hashFn boundUser body
    (Except.ok merged, db.map (fun u => if u "id" = boundUser "id" then merged else u))

theorem objectAssign_cons (t : JsObject) (kv : String × JsVal)
    (rest : List (String × JsVal)) :
    objectAssign t (kv :: rest) =
      objectAssign (fun k0 => if k0 = kv.1 then some kv.2 else t k0) rest := rfl

theorem objectAssign_lookup_not_mem (k : String) :
    ∀ (src : List (String × JsVal)) (t : JsObject),
      k ∉ src.map Prod.fst → objectAssign t src k = t k := by
  intro src
  induction src with
  | nil => intro t _; rfl
  | cons kv rest ih =>
    intro t h
    simp only [List.map_cons, List.mem_cons, not_or] at h
    rw [objectAssign_cons, ih _ h.2]
    simp [h.1]

theorem objectAssign_lookup_mem (k : String) (v : JsVal) :
    ∀ (src : List (String × JsVal)) (t : JsObject),
      (src.map Prod.fst).Nodup → (k, v) ∈ src → objectAssign t src k = some v := by
  intro src
  induction src with
  | nil => intro t _ hmem; cases hmem
  | cons kv rest ih =>
    intro t hnodup hmem
    rw [objectAssign_cons]
    rcases List.mem_cons.mp hmem with heq | hrest
    · subst heq
      have h1 : k ∉ rest.map Prod.fst := by
        simp only [List.map_cons] at hnodup
        exact (List.nodup_cons.mp hnodup).1
      rw [objectAssign_lookup_not_mem _ _ _ h1]
      simp
    · have h2 : (rest.map Prod.fst).Nodup := by
        simp only [List.map_cons] at hnodup
        exact (List.nodup_cons.mp hnodup).2
      exact ih _ h2 hrest

theorem hashPasswordEntry_keys (hashFn : JsVal → JsVal) (body : List (String × JsVal)) :
    (hashPasswordEntry hashFn body).map Prod.fst = body.map Prod.fst := by
  induction body with
  | nil => rfl
  | cons kv rest ih =>
    have hhead :
        (if kv.1 = "password" ∧ kv.2 ≠ JsVal.null then (kv.1, hashFn kv.2) else kv).1 =
          kv.1 := by
      split <;> rfl
    simp only [hashPasswordEntry, List.map_cons] at ih ⊢
    rw [hhead, ih]

theorem hashPasswordEntry_mem (hashFn : JsVal → JsVal) (body : List (String × JsVal))
    (k : String) (v : JsVal) (h : (k, v) ∈ body) :
    (k, if k = "password" ∧ v ≠ JsVal.null then hashFn v else v) ∈
      hashPasswordEntry hashFn body := by
  unfold hashPasswordEntry
  refine List.mem_map.mpr ⟨(k, v), h, ?_⟩
  split <;> rename_i hc <;> simp [hc]

/-- C10: `update` merges every enumerable property present in the request
body onto the bound user entity via `Object.assign` — including properties
outside the documented set — while every property absent from the body is
left unchanged, and only a (non-nil) `password` value is transformed by
hashing before the merge. -/
theorem update_merges_body_via_object_assign (hashFn : JsVal → JsVal)
    (boundUser : JsObject) (body : List (String × JsVal))
    (hnodup : (body.map Prod.fst).Nodup) :
    (∀ k v, (k, v) ∈ body →
      updateMergedUser hashFn boundUser body k =
        some (if k = "password" ∧ v ≠ JsVal.null then hashFn v else v)) ∧
    (∀ k, k ∉ body.map Prod.fst →
      updateMergedUser hashFn boundUser body k = boundUser k) := by
  constructor
  · intro k v hmem
    unfold updateMergedUser
    have hk : ((hashPasswordEntry hashFn body).map Prod.fst).Nodup := by
      rw [hashPasswordEntry_keys]; exact hnodup
    exact objectAssign_lookup_mem k _ _ _ hk (hashPasswordEntry_mem hashFn body k v hmem)
  · intro k hk
    unfold updateMergedUser
    apply objectAssign_lookup_not_mem
    rw [hashPasswordEntry_keys]; exact hk

/-- Concrete instantiation of `update_merges_body_via_object_assign`: a body
carrying a password, a documented field and an undocumented `avatarUrl`
property is merged wholesale, the password hashed, and an absent `email`
property untouched. -/
theorem update_merges_body_via_object_assign_witness :
    ((([("username", JsVal.str "neo"), ("password", JsVal.str "pw"),
        ("avatarUrl", JsVal.str "http://x")] : List (String × JsVal)).map Prod.fst).Nodup) ∧
    updateMergedUser (fun _ => JsVal.str "hashed")
        (fun k => if k = "email" then some (JsVal.str "old@x") else none)
        [("username", JsVal.str "neo"), ("password", JsVal.str "pw"),
         ("avatarUrl", JsVal.str "http://x")] "password" = some (JsVal.str "hashed") ∧
    updateMergedUser (fun _ => JsVal.str "hashed")
        (fun k => if k = "email" then some (JsVal.str "old@x") else none)
        [("username", JsVal.str "neo"), ("password", JsVal.str "pw"),
         ("avatarUrl", JsVal.str "http://x")] "avatarUrl" = some (JsVal.str "http://x") ∧
    updateMergedUser (fun _ => JsVal.str "hashed")
        (fun k => if k = "email" then some (JsVal.str "old@x") else none)
        [("username", JsVal.str "neo"), ("password", JsVal.str "pw"),
         ("avatarUrl", JsVal.str "http://x")] "email" = some (JsVal.str "old@x") := by
  have hnodup : ((([("username", JsVal.str "neo"), ("password", JsVal.str "pw"),
      ("avatarUrl", JsVal.str "http://x")] : List (String × JsVal)).map Prod.fst).Nodup) := by
    decide
  have h := update_merges_body_via_object_assign (fun _ => JsVal.str "hashed")
    (fun k => if k = "email" then some (JsVal.str "old@x") else none)
    [("username", JsVal.str "neo"), ("password", JsVal.str "pw"),
     ("avatarUrl", JsVal.str "http://x")] hnodup
  refine ⟨hnodup, ?_, ?_, ?_⟩
  · have := h.1 "password" (JsVal.str "pw") (by simp)
    simpa using this
  · have := h.1 "avatarUrl" (JsVal.str "http://x") (by simp)
    simpa using this
  · have := h.2 "email" (by decide)
    simpa using this

/-- C7: if the update body supplies a username already belonging to a user
whose id differs from the bound user's id, `update` fails with a 409
conflict and the user table is unchanged; supplying the bound user's own
current username raises no conflict and the update succeeds. -/
theorem update_username_conflict (hashFn : JsVal → JsVal) (db : List JsObject)
    (boundUser : JsObject) (body : List (String × JsVal)) (s : String)
    (hbody : bodyGet body "username" = some (JsVal.str s)) :
    (∀ e, db.find? (fun u => decide (u "username" = some (JsVal.str s))) = some e →
      e "id" ≠ boundUser "id" →
      update hashFn db boundUser body =
        (Except.error
          { code := 409,
            error := "The provided username already exists for a registered user." }, db)) ∧
    (boundUser ∈ db → boundUser "username" = some (JsVal.str s) →
      (∀ u ∈ db, u "username" = some (JsVal.str s) → u "id" = boundUser "id") →
      update hashFn db boundUser body =
        (Except.ok (updateMergedUser hashFn boundUser body),
         db.map (fun u => if u "id" = boundUser "id"
           then updateMergedUser hashFn boundUser body else u))) := by
  constructor
  · intro e hfind hdiff
    unfold update findByUsername
    rw [hbody]
    dsimp only
    rw [hfind]
    simp [hdiff]
  · intro hmem hown huniq
    unfold update findByUsername
    rw [hbody]
    dsimp only
    have hsome : (db.find? (fun u => decide (u "username" = some (JsVal.str s)))).isSome := by
      rw [List.find?_isSome]
      exact ⟨boundUser, hmem, by simp [hown]⟩
    obtain ⟨e, hfind⟩ := Option.isSome_iff_exists.mp hsome
    have hpe := List.find?_some hfind
    have hmeme := List.mem_of_find?_eq_some hfind
    have hid : e "id" = boundUser "id" := huniq e hmeme (of_decide_eq_true hpe)
    rw [hfind]
    simp [hid]

/-- Concrete instantiation of `update_username_conflict`: renaming towards
the username of another registered user yields the 409 conflict and leaves
the table alone, while re-supplying one's own username succeeds. -/
theorem update_username_conflict_witness :
    (update (fun v => v)
        [fun k => if k = "id" then some (JsVal.num 1) else
          if k = "username" then some (JsVal.str "taken") else none]
        (fun k => if k = "id" then some (JsVal.num 2) else
          if k = "username" then some (JsVal.str "mine") else none)
        [("username", JsVal.str "taken")]).1 =
      Except.error
        { code := 409,
          error := "The provided username already exists for a registered user." } ∧
    (update (fun v => v)
        [fun k => if k = "id" then some (JsVal.num 2) else
          if k = "username" then some (JsVal.str "mine") else none]
        (fun k => if k = "id" then some (JsVal.num 2) else
          if k = "username" then some (JsVal.str "mine") else none)
        [("username", JsVal.str "mine")]).1.isOk = true := by
  constructor
  · have h := (update_username_conflict (fun v => v)
      [fun k => if k = "id" then some (JsVal.num 1) else
        if k = "username" then some (JsVal.str "taken") else none]
      (fun k => if k = "id" then some (JsVal.num 2) else
        if k = "username" then some (JsVal.str "mine") else none)
      [("username", JsVal.str "taken")] "taken" rfl).1
      (fun k => if k = "id" then some (JsVal.num 1) else
        if k = "username" then some (JsVal.str "taken") else none)
      rfl (by simp)
    rw [h]
  · have h := (update_username_conflict (fun v => v)
      [fun k => if k = "id" then some (JsVal.num 2) else
        if k = "username" then some (JsVal.str "mine") else none]
      (fun k => if k = "id" then some (JsVal.num 2) else
        if k = "username" then some (JsVal.str "mine") else none)
      [("username", JsVal.str "mine")] "mine" rfl).2
      (List.mem_singleton.mpr rfl) rfl ?_
    · rw [h]; rfl
    · intro u hu _
      rw [List.mem_singleton.mp hu]

/-! ### Transactional user removal (`deleteUser`, User.controller.ts
lines 276-352) -/

/-- Modelled from the spec: the `UserRole` enum of `models/User` (its source
is not under `src/`), an integer-backed totally ordered enum with
`PENDING < USER < MODERATOR < ADMIN`. -/
inductive UserRole
  | PENDING
  | USER
  | MODERATOR
  | ADMIN
  deriving Repr, DecidableEq

/-- The integer value backing each `UserRole` member, in declaration
order as in a TypeScript enum. -/
def UserRole.toNat : UserRole → Nat
  | .PENDING => 0
  | .USER => 1
  | .MODERATOR => 2
  | .ADMIN => 3

/-- A row of the `User` table, with the columns `deleteUser` reads. -/
structure UserRow where
  id : Nat
  username : String
  role : UserRole
  deriving Repr, DecidableEq

/-- One entry of the `storage.players` JSON map of a game: the player
record `{ id, team, username }`. -/
structure PlayerEntry where
  id : Nat
  team : Nat
  username : String
  deriving Repr, DecidableEq

/-- The JSON `storage` blob of a game; its `players` field, when present,
maps user ids to player records (JS object keys, at most one entry per
id). -/
structure GameStorage where
  players : Option (List (Nat × PlayerEntry))
  deriving Repr, DecidableEq

/-- A row of the `Game` table: an id and the JSON `storage` blob. -/
structure GameRow where
  id : Nat
  storage : Option GameStorage
  deriving Repr, DecidableEq

/-- A row of one of the nine dependent tables (Activity, UserProfile,
EmailOptIn, UserStats, UserGameStats, LinkedAccount, PasswordReset,
EmailVerification, GameApplication): a primary key and the foreign key
referencing the owning user. -/
structure DependentRow where
  id : Nat
  userId : Nat
  deriving Repr, DecidableEq

/-- The slice of the relational store that `deleteUser` touches. -/
structure Database where
  users : List UserRow
  activities : List DependentRow
  profiles : List DependentRow
  emailOptIns : List DependentRow
  userStats : List DependentRow
  userGameStats : List DependentRow
  linkedAccounts : List DependentRow
  passwordResets : List DependentRow
  emailVerifications : List DependentRow
  gameApplications : List DependentRow
  games : List GameRow
  deriving Repr, DecidableEq

/-- Lookup of `storage.players[uid]` on a players map. -/
def lookupPlayer (ps : List (Nat × PlayerEntry)) (uid : Nat) : Option PlayerEntry :=
  (ps.find? (fun kp => kp.1 = uid)).map Prod.snd

/-- The in-transaction patch of one game (lines 331-345): when the game's
storage carries a players map with an entry for the removed user, that
entry alone is overwritten in place with the sentinel
`{ id := 0, team := <original team>, username := "Competitor" }` and the
game is saved; otherwise the game is left alone. The SQL pre-filter
(lines 324-329) selects exactly the games whose players map has the key,
so mapping this patch over the whole table is the transaction's effect. -/
def patchGame (uid : Nat) (g : GameRow) : GameRow :=
  match g.storage with
  | none => g
  | some st =>
    match st.players with
    | none => g
    | some ps =>
      if (lookupPlayer ps uid).isSome then
        { g with storage := some { st with players := some (ps.map (fun kp =>
            if kp.1 = uid then (kp.1, { id := 0, team := kp.2.team, username := "Competitor" })
            else kp)) } }
      else g

/-- `transaction.find(Entity, { where: { user: removingUser } })` followed by
`transaction.remove(...)`: drops every row of the table whose foreign key
references the removed user. -/
def removeDependentRows (uid : Nat) (rows : List DependentRow) : List DependentRow :=
  rows.filter (fun r => r.userId ≠ uid)

/-- The ordered operations of the `deleteUser` transaction body
(lines 285-349): the nine dependent-table removals, the games patch loop,
and the final user-row delete. -/
def deleteUserSteps (uid : Nat) : List (Database → Database) :=
  [ fun db => { db with activities := removeDependentRows uid db.activities },
    fun db => { db with profiles := removeDependentRows uid db.profiles },
    fun db => { db with emailOptIns := removeDependentRows uid db.emailOptIns },
    fun db => { db with userStats := removeDependentRows uid db.userStats },
    fun db => { db with userGameStats := removeDependentRows uid db.userGameStats },
    fun db => { db with linkedAccounts := removeDependentRows uid db.linkedAccounts },
    fun db => { db with passwordResets := removeDependentRows uid db.passwordResets },
    fun db => { db with emailVerifications := removeDependentRows uid db.emailVerifications },
    fun db => { db with gameApplications := removeDependentRows uid db.gameApplications },
    fun db => { db with games := db.games.map (patchGame uid) },
    fun db => { db with users := db.users.filter (fun u => u.id ≠ uid) } ]

/-- Modelled from the spec: the ORM's `getConnection().transaction` (the
library is not part of the sources) runs the database operations in order
and is all-or-nothing. `failsAt` is a failure oracle telling whether the
i-th operation fails; a failure aborts the run with `none` and the store
rolls back. -/
def runTransaction (failsAt : Nat → Bool) :
    List (Database → Database) → Nat → Database → Option Database
  | [], _, db => some db
  | step :: rest, i, db =>
    if failsAt i then none else runTransaction failsAt rest (i + 1) (step db)

/-- The 400 error thrown by the role guard of `deleteUser` (lines 280-283). -/
def roleRemovalError : ApiError :=
  { code := 400,
    error := "Users with roles moderator or higher cannot be deleted, ensure to demote the user first." }

/-- The `deleteUser` handler (lines 276-352): `removingUser` is the bound
target user. A target role at or below MODERATOR is rejected up front with
a 400 error; otherwise the cascade runs inside one transaction and the
response carries the removed user's original id. On a transaction failure
the rejection propagates (a 500-class failure) and the store keeps its
pre-call state. The result pairs the response with the resulting store. -/
def deleteUser (failsAt : Nat → Bool) (db : Database) (removingUser : UserRow) :
    Except ApiError Nat × Database :=
  if removingUser.role.toNat ≤ UserRole.MODERATOR.toNat then
    (Except.error roleRemovalError, db)
  else
    match runTransaction failsAt (deleteUserSteps removingUser.id) 0 db with
    | some db2 => (Except.ok removingUser.id, db2)
    | none => (Except.error { code := 500, error := "Internal server error." }, db)

theorem runTransaction_some (failsAt : Nat → Bool) :
    ∀ (steps : List (Database → Database)) (start : Nat) (db db2 : Database),
      runTransaction failsAt steps start db = some db2 →
      db2 = steps.foldl (fun d step => step d) db := by
  intro steps
  induction steps with
  | nil =>
    intro start db db2 h
    cases h
    rfl
  | cons s rest ih =>
    intro start db db2 h
    unfold runTransaction at h
    split at h
    · cases h
    · simpa using ih (start + 1) (s db) db2 h

theorem runTransaction_fails (failsAt : Nat → Bool) :
    ∀ (steps : List (Database → Database)) (start : Nat) (db : Database),
      (∃ i, i < steps.length ∧ failsAt (start + i) = true) →
      runTransaction failsAt steps start db = none := by
  intro steps
  induction steps with
  | nil =>
    intro start db h
    obtain ⟨i, hi, _⟩ := h
    exact absurd hi (by simp)
  | cons s rest ih =>
    intro start db h
    obtain ⟨i, hi, hf⟩ := h
    unfold runTransaction
    split
    · rfl
    · rename_i hnot
      apply ih (start + 1) (s db)
      cases i with
      | zero => exact absurd hf hnot
      | succ j =>
        refine ⟨j, by simpa using hi, ?_⟩
        have harith : start + (j + 1) = start + 1 + j := by omega
        rw [harith] at hf
        exact hf

theorem deleteUser_ok_result (failsAt : Nat → Bool) (db : Database) (u : UserRow)
    (r : Nat) (db2 : Database)
    (hok : deleteUser failsAt db u = (Except.ok r, db2)) :
    r = u.id ∧
    db2 = { users := db.users.filter (fun x => x.id ≠ u.id),
            activities := removeDependentRows u.id db.activities,
            profiles := removeDependentRows u.id db.profiles,
            emailOptIns := removeDependentRows u.id db.emailOptIns,
            userStats := removeDependentRows u.id db.userStats,
            userGameStats := removeDependentRows u.id db.userGameStats,
            linkedAccounts := removeDependentRows u.id db.linkedAccounts,
            passwordResets := removeDependentRows u.id db.passwordResets,
            emailVerifications := removeDependentRows u.id db.emailVerifications,
            gameApplications := removeDependentRows u.id db.gameApplications,
            games := db.games.map (patchGame u.id) } := by
  unfold deleteUser at hok
  split at hok
  · simp at hok
  · split at hok
    · rename_i db2mid heq
      simp only [Prod.mk.injEq, Except.ok.injEq] at hok
      have hfold := runTransaction_some failsAt (deleteUserSteps u.id) 0 db db2mid heq
      refine ⟨hok.1.symm, ?_⟩
      rw [← hok.2, hfold]
      simp only [deleteUserSteps, List.foldl_cons, List.foldl_nil]
    · simp at hok

theorem lookupPlayer_patched_self (uid : Nat) :
    ∀ (ps : List (Nat × PlayerEntry)) (p : PlayerEntry),
      lookupPlayer ps uid = some p →
      lookupPlayer (ps.map (fun kp =>
          if kp.1 = uid then (kp.1, { id := 0, team := kp.2.team, username := "Competitor" })
          else kp)) uid =
        some { id := 0, team := p.team, username := "Competitor" } := by
  intro ps
  induction ps with
  | nil => intro p h; cases h
  | cons kp rest ih =>
    intro p h
    by_cases hk : kp.1 = uid
    · have hp : p = kp.2 := by
        unfold lookupPlayer at h
        rw [List.find?_cons_of_pos _ (by simp [hk])] at h
        simpa using h.symm
      subst hp
      unfold lookupPlayer
      rw [List.map_cons, if_pos hk, List.find?_cons_of_pos _ (by simp [hk])]
      rfl
    · have hrest : lookupPlayer rest uid = some p := by
        unfold lookupPlayer at h ⊢
        rwa [List.find?_cons_of_neg _ (by simp [hk])] at h
      have := ih p hrest
      unfold lookupPlayer at this ⊢
      rw [List.map_cons, if_neg hk, List.find?_cons_of_neg _ (by simp [hk])]
      exact this

theorem lookupPlayer_patched_other (uid k : Nat) (hk : k ≠ uid) :
    ∀ ps : List (Nat × PlayerEntry),
      lookupPlayer (ps.map (fun kp =>
          if kp.1 = uid then (kp.1, { id := 0, team := kp.2.team, username := "Competitor" })
          else kp)) k = lookupPlayer ps k := by
  intro ps
  induction ps with
  | nil => rfl
  | cons kp rest ih =>
    by_cases hhead : kp.1 = k
    · have hne : kp.1 ≠ uid := by rw [hhead]; exact hk
      unfold lookupPlayer
      rw [List.map_cons, if_neg hne,
        List.find?_cons_of_pos _ (by simp [hhead]),
        List.find?_cons_of_pos _ (by simp [hhead])]
    · unfold lookupPlayer at ih ⊢
      rw [List.map_cons]
      have hkey : (if kp.1 = uid
          then (kp.1, ({ id := 0, team := kp.2.team, username := "Competitor" } : PlayerEntry))
          else kp).1 = kp.1 := by
        split <;> rfl
      rw [List.find?_cons_of_neg _ (by simp [hkey, hhead]),
          List.find?_cons_of_neg _ (by simp [hhead])]
      exact ih

theorem patchGame_of_player (uid : Nat) (g : GameRow) (st : GameStorage)
    (ps : List (Nat × PlayerEntry)) (p : PlayerEntry)
    (hst : g.storage = some st) (hps : st.players = some ps)
    (hp : lookupPlayer ps uid = some p) :
    (patchGame uid g).id = g.id ∧
    ∃ ps2, (patchGame uid g).storage = some { st with players := some ps2 } ∧
      lookupPlayer ps2 uid = some { id := 0, team := p.team, username := "Competitor" } ∧
      (∀ k, k ≠ uid → lookupPlayer ps2 k = lookupPlayer ps k) ∧
      ps2.length = ps.length := by
  have hsome : (lookupPlayer ps uid).isSome = true := by rw [hp]; rfl
  unfold patchGame
  rw [hst]
  dsimp only
  rw [hps]
  dsimp only
  rw [if_pos hsome]
  refine ⟨rfl, _, rfl, lookupPlayer_patched_self uid ps p hp,
    fun k hk => lookupPlayer_patched_other uid k hk ps, by simp⟩

/-- C1: `deleteUser` requires the user it acts on (the bound target user,
whose role the handler checks) to hold a role strictly above MODERATOR;
whenever that precondition is violated the handler fails with the 400
error and performs no mutation: the user rows, every dependent table and
every game storage blob are returned unchanged. -/
theorem deleteUser_role_guard (failsAt : Nat → Bool) (db : Database) (u : UserRow)
    (h : u.role.toNat ≤ UserRole.MODERATOR.toNat) :
    deleteUser failsAt db u = (Except.error roleRemovalError, db) := by
  unfold deleteUser
  simp [h]

/-- A small concrete store used by the witnesses: one admin (id 7), one
moderator (id 8), dependent rows for both, and one game whose
`storage.players` map contains user 7. -/
def sampleGame : GameRow :=
  { id := 100,
    storage := some
      { players :=
          some [(7, { id := 7, team := 1, username := "alice" }),
                (3, { id := 3, team := 2, username := "bob" })] } }

def sampleAdmin : UserRow := { id := 7, username := "alice", role := UserRole.ADMIN }

def sampleModerator : UserRow := { id := 8, username := "mod", role := UserRole.MODERATOR }

def sampleDb : Database :=
  { users := [sampleAdmin, sampleModerator],
    activities := [{ id := 1, userId := 7 }, { id := 2, userId := 8 }],
    profiles := [{ id := 1, userId := 7 }],
    emailOptIns := [{ id := 1, userId := 7 }],
    userStats := [{ id := 1, userId := 7 }],
    userGameStats := [{ id := 1, userId := 7 }],
    linkedAccounts := [{ id := 1, userId := 7 }],
    passwordResets := [{ id := 1, userId := 7 }],
    emailVerifications := [{ id := 1, userId := 7 }],
    gameApplications := [{ id := 1, userId := 7 }],
    games := [sampleGame] }

/-- The store produced by successfully deleting user 7 from `sampleDb`. -/
def sampleDbAfter : Database :=
  { users := [sampleModerator],
    activities := [{ id := 2, userId := 8 }],
    profiles := [],
    emailOptIns := [],
    userStats := [],
    userGameStats := [],
    linkedAccounts := [],
    passwordResets := [],
    emailVerifications := [],
    gameApplications := [],
    games := [{ id := 100,
                storage := some
                  { players :=
                      some [(7, { id := 0, team := 1, username := "Competitor" }),
                            (3, { id := 3, team := 2, username := "bob" })] } }] }

/-- Concrete instantiation of `deleteUser_role_guard`: attempting to delete
the MODERATOR user fails with the 400 error and leaves the store intact. -/
theorem deleteUser_role_guard_witness :
    sampleModerator.role.toNat ≤ UserRole.MODERATOR.toNat ∧
    deleteUser (fun _ => false) sampleDb sampleModerator =
      (Except.error roleRemovalError, sampleDb) :=
  ⟨by decide, deleteUser_role_guard (fun _ => false) sampleDb sampleModerator (by decide)⟩

/-- C2: a successful `deleteUser` deletes no game row and removes no players
entry; the persisted games table is the original one with exactly the
removed user's entry of each affected game overwritten by the sentinel
`{ id := 0, team := <original team>, username := "Competitor" }`, the team
preserved and every other entry and game untouched. -/
theorem deleteUser_patches_games (failsAt : Nat → Bool) (db : Database) (u : UserRow)
    (r : Nat) (db2 : Database)
    (hok : deleteUser failsAt db u = (Except.ok r, db2)) :
    db2.games = db.games.map (patchGame u.id) ∧
    db2.games.length = db.games.length ∧
    ∀ g ∈ db.games, ∀ st ps p, g.storage = some st → st.players = some ps →
      lookupPlayer ps u.id = some p →
      patchGame u.id g ∈ db2.games ∧
      (patchGame u.id g).id = g.id ∧
      ∃ ps2, (patchGame u.id g).storage = some { st with players := some ps2 } ∧
        lookupPlayer ps2 u.id = some { id := 0, team := p.team, username := "Competitor" } ∧
        (∀ k, k ≠ u.id → lookupPlayer ps2 k = lookupPlayer ps k) ∧
        ps2.length = ps.length := by
  obtain ⟨hr, hdb2⟩ := deleteUser_ok_result failsAt db u r db2 hok
  subst hdb2
  refine ⟨rfl, by simp, ?_⟩
  intro g hg st ps p hst hps hp
  exact ⟨List.mem_map_of_mem _ hg, patchGame_of_player u.id g st ps p hst hps hp⟩

/-- Concrete instantiation of `deleteUser_patches_games` on `sampleDb`:
deleting admin 7 keeps game 100 and rewrites only its entry for user 7. -/
theorem deleteUser_patches_games_witness :
    deleteUser (fun _ => false) sampleDb sampleAdmin = (Except.ok 7, sampleDbAfter) ∧
    sampleDbAfter.games = sampleDb.games.map (patchGame sampleAdmin.id) :=
  ⟨rfl,
   (deleteUser_patches_games (fun _ => false) sampleDb sampleAdmin 7 sampleDbAfter rfl).1⟩

/-- C3: after a successful `deleteUser` of the target user, no row of any
of the nine dependent tables references the removed id, the user row itself
is gone, every game that listed the user as a player keeps a row whose
entry for that user is the sentinel, and the handler responds with the
removed user's original id. -/
theorem deleteUser_postcondition (failsAt : Nat → Bool) (db : Database) (u : UserRow)
    (r : Nat) (db2 : Database)
    (hok : deleteUser failsAt db u = (Except.ok r, db2)) :
    r = u.id ∧
    (∀ row ∈ db2.activities, row.userId ≠ u.id) ∧
    (∀ row ∈ db2.profiles, row.userId ≠ u.id) ∧
    (∀ row ∈ db2.emailOptIns, row.userId ≠ u.id) ∧
    (∀ row ∈ db2.userStats, row.userId ≠ u.id) ∧
    (∀ row ∈ db2.userGameStats, row.userId ≠ u.id) ∧
    (∀ row ∈ db2.linkedAccounts, row.userId ≠ u.id) ∧
    (∀ row ∈ db2.passwordResets, row.userId ≠ u.id) ∧
    (∀ row ∈ db2.emailVerifications, row.userId ≠ u.id) ∧
    (∀ row ∈ db2.gameApplications, row.userId ≠ u.id) ∧
    (∀ usr ∈ db2.users, usr.id ≠ u.id) ∧
    (∀ g ∈ db.games, ∀ st ps p, g.storage = some st → st.players = some ps →
      lookupPlayer ps u.id = some p →
      ∃ g2, g2 ∈ db2.games ∧ g2.id = g.id ∧
        ∃ st2 ps2, g2.storage = some st2 ∧ st2.players = some ps2 ∧
          lookupPlayer ps2 u.id = some { id := 0, team := p.team, username := "Competitor" }) := by
  obtain ⟨hr, hdb2⟩ := deleteUser_ok_result failsAt db u r db2 hok
  subst hdb2
  refine ⟨hr, ?_, ?_, ?_, ?_, ?_, ?_, ?_, ?_, ?_, ?_, ?_⟩
  · intro row hrow
    simp [removeDependentRows, List.mem_filter] at hrow
    exact hrow.2
  · intro row hrow
    simp [removeDependentRows, List.mem_filter] at hrow
    exact hrow.2
  · intro row hrow
    simp [removeDependentRows, List.mem_filter] at hrow
    exact hrow.2
  · intro row hrow
    simp [removeDependentRows, List.mem_filter] at hrow
    exact hrow.2
  · intro row hrow
    simp [removeDependentRows, List.mem_filter] at hrow
    exact hrow.2
  · intro row hrow
    simp [removeDependentRows, List.mem_filter] at hrow
    exact hrow.2
  · intro row hrow
    simp [removeDependentRows, List.mem_filter] at hrow
    exact hrow.2
  · intro row hrow
    simp [removeDependentRows, List.mem_filter] at hrow
    exact hrow.2
  · intro row hrow
    simp [removeDependentRows, List.mem_filter] at hrow
    exact hrow.2
  · intro usr husr
    simp [List.mem_filter] at husr
    exact husr.2
  · intro g hg st ps p hst hps hp
    obtain ⟨hid, ps2, hstore, hself, hother, hlen⟩ :=
      patchGame_of_player u.id g st ps p hst hps hp
    exact ⟨patchGame u.id g, List.mem_map_of_mem _ hg, hid,
      { st with players := some ps2 }, ps2, hstore, rfl, hself⟩

/-- Concrete instantiation of `deleteUser_postcondition` on `sampleDb`:
deleting admin 7 answers with id 7 and leaves no user row carrying id 7. -/
theorem deleteUser_postcondition_witness :
    deleteUser (fun _ => false) sampleDb sampleAdmin = (Except.ok 7, sampleDbAfter) ∧
    (7 : Nat) = sampleAdmin.id ∧
    (∀ usr ∈ sampleDbAfter.users, usr.id ≠ sampleAdmin.id) := by
  have h := deleteUser_postcondition (fun _ => false) sampleDb sampleAdmin 7 sampleDbAfter rfl
  exact ⟨rfl, h.1, h.2.2.2.2.2.2.2.2.2.2.1⟩

/-- C4: if any operation of the `deleteUser` transaction fails (a dependent
table deletion, the games patch scan, or the final user-row delete), the
whole transaction rolls back: the handler reports an error and the store is
identical to the state before the call, so a partially applied cascade is
never observable. -/
theorem deleteUser_rollback (failsAt : Nat → Bool) (db : Database) (u : UserRow)
    (hfail : ∃ i, i < (deleteUserSteps u.id).length ∧ failsAt i = true) :
    (deleteUser failsAt db u).2 = db ∧
    ∃ e, (deleteUser failsAt db u).1 = Except.error e := by
  unfold deleteUser
  split
  · exact ⟨rfl, roleRemovalError, rfl⟩
  · have hnone := runTransaction_fails failsAt (deleteUserSteps u.id) 0 db
      (by simpa using hfail)
    rw [hnone]
    exact ⟨rfl, { code := 500, error := "Internal server error." }, rfl⟩

/-- Concrete instantiation of `deleteUser_rollback`: a failure at the sixth
transaction operation leaves `sampleDb` untouched and yields an error. -/
theorem deleteUser_rollback_witness :
    (∃ i, i < (deleteUserSteps sampleAdmin.id).length ∧ (fun j => decide (j = 5)) i = true) ∧
    (deleteUser (fun j => decide (j = 5)) sampleDb sampleAdmin).2 = sampleDb ∧
    ∃ e, (deleteUser (fun j => decide (j = 5)) sampleDb sampleAdmin).1 = Except.error e := by
  have hfail : ∃ i, i < (deleteUserSteps sampleAdmin.id).length ∧
      (fun j => decide (j = 5)) i = true := ⟨5, by decide, by decide⟩
  exact ⟨hfail, deleteUser_rollback (fun j => decide (j = 5)) sampleDb sampleAdmin hfail⟩

end DevWars
